import Mathlib

/-!
# speedtest-go: the measurement engine of `speedtest/request.go`

A shallow embedding of `speedtest/request.go` (latency probe, download and
upload transfer jobs, and the handler that feeds the job queue), with the
network, the clock and the job queue made explicit:

* `Env` is the behaviour of everything outside the program (does a request
  construction fail, does an exchange fail, how long does it take, does the
  queue run a pushed job);
* `World` is the observable state that the code threads through: the clock and
  a record of every request built, every request sent, every payload asked for
  and every job pushed.

Go's `error` is `Option Error` (`none` is `nil`); a run-time fault of the Go
code (index out of range, nil dereference) is `Run.fault`.
-/

namespace Speedtest

/-! ## Plain data -/

/-- Nanosecond count of a Go `time.Duration` (an `int64`). -/
abbrev Duration := Int

/-- Go's `time.Millisecond`. -/
def Millisecond : Duration := 1000000

/-- Go's `time.Second`. -/
def Second : Duration := 1000000000

/-- The constant `testTime` of request.go: `time.Second * 10`. -/
def testTime : Duration := Second * 10

/-- A non-nil Go `error` value. -/
structure Error where
  text : String
deriving DecidableEq, Repr

/-- Outcome of running a piece of Go code: it returns a value, or it faults
(a run-time panic, which is not an `error` value). -/
inductive Run (α : Type) where
  | ret (a : α)
  | fault (what : String)
deriving DecidableEq, Repr

/-- The part of `http.Request` that request.go touches. -/
structure Request where
  Method : String
  URL : String
  ContentLength : Int
  Header : List (String × String)
deriving DecidableEq, Repr

/-- An `http.Response`; `exchange` is the number of the exchange that produced it. -/
structure Response where
  exchange : Nat
deriving DecidableEq, Repr

/-- The value returned by `UploadSnapshotHandler`: a body with a declared length. -/
structure DataChunk where
  ContentLength : Int
deriving DecidableEq, Repr

/-- Which of the two rate captures of the data manager was started. -/
inductive Capture where
  | download
  | upload
deriving DecidableEq, Repr

/-- What the function handed to `time.AfterFunc` in `testHandler` does when it runs. -/
inductive TimerAction where
  | tickerStop
  | queueTerminate
deriving DecidableEq, Repr

/-- Modelled from the spec: the `Server` record, whose declaration is not among
the sources. It holds the URL and the accumulated results that request.go and
speedtest.go read and write: latency, jitter, min/max latency. -/
structure Server where
  URL : String
  Latency : Duration
  Jitter : Duration
  MinLatency : Duration
  MaxLatency : Duration
deriving DecidableEq, Repr

/-- Behaviour of everything outside the program. The number given to each
function counts the earlier calls of the same kind (from 0). -/
structure Env where
  /-- the error of a request construction for this method and URL, if it fails -/
  newRequestErr : Nat → String → String → Option Error
  /-- the error of `doer.Do` for this request, if it fails -/
  doErr : Nat → Request → Option Error
  /-- nanoseconds that pass while `doer.Do` runs -/
  elapsed : Nat → Duration
  /-- the error met while reading the body of the response of this exchange, if any -/
  bodyErr : Nat → Option Error
  /-- whether a worker of the queue runs the job of this push -/
  dispatched : Nat → Bool
  /-- the value of `runtime.NumCPU()` -/
  numCPU : Nat

/-- Observable state threaded through the code. Lists are oldest first. -/
structure World where
  /-- reading of the monotonic clock, in nanoseconds -/
  clock : Duration
  /-- method and URL of every `http.NewRequestWithContext` call -/
  built : List (String × String)
  /-- every request handed to `doer.Do` -/
  sent : List Request
  /-- every size asked of `UploadSnapshotHandler` -/
  chunks : List Int
  /-- number of `resp.Body.Close()` calls -/
  closed : Nat
  /-- every queue created: backlog size and number of workers -/
  queues : List (Nat × Nat)
  /-- every rate capture started -/
  captures : List Capture
  /-- every timer armed with `time.AfterFunc`: its delay and what it does on firing -/
  timers : List (Duration × List TimerAction)
  /-- number of `q.Push` calls -/
  pushed : Nat
deriving DecidableEq, Repr

/-- The state before anything has happened. -/
def World.init : World :=
  { clock := 0, built := [], sent := [], chunks := [], closed := 0,
    queues := [], captures := [], timers := [], pushed := 0 }

/-! ## Go library functions used by request.go -/

/-- Offset of the first occurrence of `sep` in a string (`strings.Index`),
`none` when there is none. -/
def indexChars (sep : List Char) : List Char → Option Nat
  | [] => if sep.isEmpty then some 0 else none
  | c :: cs =>
    if sep.isPrefixOf (c :: cs) then some 0
    else (indexChars sep cs).map (· + 1)

/-- The loop of `strings.Split` for a non-empty separator: cut at each
occurrence of `sep`, left to right. The first argument bounds the number of
cuts; the length of the string is always enough. -/
def splitChars (sep : List Char) : Nat → List Char → List (List Char)
  | 0, s => [s]
  | fuel + 1, s =>
    match indexChars sep s with
    | none => [s]
    | some m => s.take m :: splitChars sep fuel (s.drop (m + sep.length))

/-- Go's `strings.Split(s, sep)`: with an empty separator the string is cut
into its characters. -/
def Split (s sep : String) : List String :=
  if sep = "" then s.data.map (fun c => String.mk [c])
  else (splitChars sep.data s.length s.data).map String.mk

/-- The expression `strings.Split(url, "/upload.php")[0]` of request.go. Element 0
exists because the separator is not empty (`Split_ne_nil`). -/
def beforeUpload (url : String) : String :=
  (Split url "/upload.php").headD ""

/-- Go's `strconv.Itoa`. -/
def Itoa (n : Int) : String := toString n

/-- Go's indexing `xs[w]` of a fixed array by an `int`: outside the bounds the
program faults. -/
def index (xs : List Int) (w : Int) : Option Int :=
  if 0 ≤ w then xs.get? w.toNat else none

/-- Go's `http.NewRequestWithContext`: it returns either a request and a nil
error, or a nil request and an error. A request built this way has
`ContentLength` 0 and no header. -/
def NewRequestWithContext (env : Env) (method url : String) (σ : World) :
    (Option Request × Option Error) × World :=
  let σ1 := { σ with built := σ.built ++ [(method, url)] }
  match env.newRequestErr σ.built.length method url with
  | some e => ((none, some e), σ1)
  | none => ((some { Method := method, URL := url, ContentLength := 0, Header := [] }, none), σ1)

/-- Go's `doer.Do(req)`: one HTTP exchange, which takes time and either fails
or yields a response. -/
def Do (env : Env) (req : Request) (σ : World) : Except Error Response × World :=
  let k := σ.sent.length
  let σ1 := { σ with sent := σ.sent ++ [req], clock := σ.clock + env.elapsed k }
  match env.doErr k req with
  | some e => (.error e, σ1)
  | none => (.ok { exchange := k }, σ1)

/-- Go's `Header.Set`: the entry for the key is replaced. -/
def headerSet (h : List (String × String)) (key value : String) : List (String × String) :=
  h.filter (fun kv => kv.1 ≠ key) ++ [(key, value)]

/-- The call `resp.Body.Close()`. -/
def closeBody (σ : World) : World := { σ with closed := σ.closed + 1 }

/-- Modelled from the spec: `GlobalDataManager.NewDataChunk().UploadSnapshotHandler(size)`,
which is not among the sources. The payload generator returns a body of exactly
the requested size, with that size as its declared length. -/
def UploadSnapshotHandler (size : Int) (σ : World) : DataChunk × World :=
  ({ ContentLength := size }, { σ with chunks := σ.chunks ++ [size] })

/-- Modelled from the spec: `GlobalDataManager.NewDataChunk().DownloadSnapshotHandler(body)`,
which is not among the sources. The counting wrapper reads the body to its end
and returns the error met while reading, if any. -/
def DownloadSnapshotHandler (env : Env) (resp : Response) (σ : World) : Option Error × World :=
  (env.bodyErr resp.exchange, σ)

/-- Go's `io.Copy(io.Discard, resp.Body)`, of which only the error is kept. -/
def copyDiscard (env : Env) (resp : Response) (σ : World) : Option Error × World :=
  (env.bodyErr resp.exchange, σ)

/-- Modelled from the spec: `GlobalDataManager.DownloadRateCapture` and
`UploadRateCapture`, which are not among the sources. Each starts the periodic
rate sampler of its direction and returns its ticker. -/
def rateCapture (c : Capture) (σ : World) : World :=
  { σ with captures := σ.captures ++ [c] }

/-! ## request.go -/

/-- The size ladder `dlSizes` of request.go. -/
def dlSizes : List Int := [350, 500, 750, 1000, 1500, 2000, 2500, 3000, 3500, 4000]

/-- The size ladder `ulSizes` of request.go, commented there as kB. -/
def ulSizes : List Int := [100, 300, 500, 800, 1000, 1500, 2500, 3000, 3500, 4000]

/-- The Go types `downloadFunc` and `uploadFunc`: URL and size index to error. -/
abbrev TransferFunc := String → Int → World → Run (Option Error) × World

/-- The Go types `downloadWarmUpFunc` and `uploadWarmUpFunc`: URL to error. -/
abbrev WarmUpFunc := String → World → Run (Option Error) × World

/-- A `queue.Jober`: a unit of work that returns nothing. -/
abbrev Job := World → Run Unit × World

/-- The function `downloadRequest` of request.go. -/
def downloadRequest (env : Env) (dlURL : String) (w : Int) (σ : World) :
    Run (Option Error) × World :=
  match index dlSizes w with
  | none => (.fault "index out of range", σ)
  | some size =>
    let xdlURL := dlURL ++ "/random" ++ Itoa size ++ "x" ++ Itoa size ++ ".jpg"
    match NewRequestWithContext env "GET" xdlURL σ with
    | ((_, some err), σ) => (.ret (some err), σ)
    | ((none, none), σ) => (.fault "nil pointer dereference", σ)
    | ((some req, none), σ) =>
      match Do env req σ with
      | (.error err, σ) => (.ret (some err), σ)
      | (.ok resp, σ) =>
        let (err, σ) := DownloadSnapshotHandler env resp σ
        (.ret err, closeBody σ)

/-- The function `uploadRequest` of request.go. The field `ContentLength` of
the request is written before the error of the construction is looked at. -/
def uploadRequest (env : Env) (ulURL : String) (w : Int) (σ : World) :
    Run (Option Error) × World :=
  match index ulSizes w with
  | none => (.fault "index out of range", σ)
  | some size =>
    let (dc, σ) := UploadSnapshotHandler ((size * 100 - 51) * 10) σ
    let ((req, err), σ) := NewRequestWithContext env "POST" ulURL σ
    match req with
    | none => (.fault "nil pointer dereference", σ)
    | some req =>
      let req := { req with ContentLength := dc.ContentLength }
      match err with
      | some err => (.ret (some err), σ)
      | none =>
        let req := { req with
          Header := headerSet req.Header "Content-Type" "application/octet-stream" }
        match Do env req σ with
        | (.error err, σ) => (.ret (some err), σ)
        | (.ok resp, σ) =>
          let (err, σ) := copyDiscard env resp σ
          (.ret err, closeBody σ)

/-- The function `dlWarmUp` of request.go. -/
def dlWarmUp (env : Env) (dlURL : String) (σ : World) : Run (Option Error) × World :=
  downloadRequest env dlURL 2 σ

/-- The function `ulWarmUp` of request.go. -/
def ulWarmUp (env : Env) (ulURL : String) (σ : World) : Run (Option Error) × World :=
  uploadRequest env ulURL 4 σ

/-- The statement `_ = f(...)` inside a job closure: the error is dropped. -/
def discardError (r : Run (Option Error) × World) : Run Unit × World :=
  match r with
  | (.ret _, σ) => (.ret (), σ)
  | (.fault what, σ) => (.fault what, σ)

/-- The loop `for i := 0; i < 1000; i++ { q.Push(job) }` of `testHandler`, by the
number of iterations left. The jobs that the queue runs are run in the order
of their pushes; a fault inside a job ends the program. -/
def pushLoop (env : Env) (job : Job) : Nat → World → Run Unit × World
  | 0, σ => (.ret (), σ)
  | n + 1, σ =>
    let σ1 := { σ with pushed := σ.pushed + 1 }
    if env.dispatched σ.pushed then
      match job σ1 with
      | (.ret _, σ2) => pushLoop env job n σ2
      | (.fault what, σ2) => (.fault what, σ2)
    else pushLoop env job n σ1

/-- The function `testHandler` of request.go. -/
def testHandler (env : Env) (captureFunc : World → World) (job : Job) (σ : World) :
    Run Unit × World :=
  let σ := { σ with queues := σ.queues ++ [(10, env.numCPU)] }
  let σ := captureFunc σ
  let σ := { σ with
    timers := σ.timers ++ [(testTime, [TimerAction.tickerStop, TimerAction.queueTerminate])] }
  pushLoop env job 1000 σ

/-- The statement `return nil` that follows the call of `testHandler`: it is
reached when `testHandler` has returned; a fault inside it ends the program. -/
def returnNil (r : Run Unit × World) : Run (Option Error) × World :=
  match r with
  | (.ret _, σ) => (.ret none, σ)
  | (.fault what, σ) => (.fault what, σ)

set_option linter.unusedVariables false in
/-- The method `downloadTestContext` of request.go. -/
def downloadTestContext (env : Env) (s : Server) (savingMode : Bool)
    (dlWarmUp : WarmUpFunc) (downloadRequest : TransferFunc) (σ : World) :
    Run (Option Error) × World :=
  let dlURL := beforeUpload s.URL
  returnNil (testHandler env (rateCapture .download)
    (fun σ => discardError (downloadRequest dlURL 5 σ)) σ)

set_option linter.unusedVariables false in
/-- The method `uploadTestContext` of request.go. -/
def uploadTestContext (env : Env) (s : Server) (savingMode : Bool)
    (ulWarmUp : WarmUpFunc) (uploadRequest : TransferFunc) (σ : World) :
    Run (Option Error) × World :=
  returnNil (testHandler env (rateCapture .upload)
    (fun σ => discardError (uploadRequest s.URL 5 σ)) σ)

/-- The method `DownloadTest` of request.go. -/
def DownloadTest (env : Env) (s : Server) (savingMode : Bool) (σ : World) :
    Run (Option Error) × World :=
  downloadTestContext env s savingMode (dlWarmUp env) (downloadRequest env) σ

/-- The method `UploadTest` of request.go. -/
def UploadTest (env : Env) (s : Server) (savingMode : Bool) (σ : World) :
    Run (Option Error) × World :=
  uploadTestContext env s savingMode (ulWarmUp env) (uploadRequest env) σ

/-- The loop `for i := 0; i < 3; i++` of `PingTestContext`, by the number of
iterations left; `l` is the smallest round trip so far. -/
def pingLoop (env : Env) (pingURL : String) :
    Nat → Duration → World → Run (Option Error) × Duration × World
  | 0, l, σ => (.ret none, l, σ)
  | n + 1, l, σ =>
    let sTime := σ.clock
    match NewRequestWithContext env "GET" pingURL σ with
    | ((_, some err), σ) => (.ret (some err), l, σ)
    | ((none, none), σ) => (.fault "nil pointer dereference", l, σ)
    | ((some req, none), σ) =>
      match Do env req σ with
      | (.error err, σ) => (.ret (some err), l, σ)
      | (.ok _, σ) =>
        let fTime := σ.clock
        let l := if fTime - sTime < l then fTime - sTime else l
        pingLoop env pingURL n l (closeBody σ)

/-- The method `PingTestContext` of request.go. Go's `/` on `int64` rounds
toward zero. -/
def PingTestContext (env : Env) (s : Server) (σ : World) :
    Run (Option Error) × Server × World :=
  let pingURL := beforeUpload s.URL ++ "/latency.txt"
  match pingLoop env pingURL 3 (Second * 10) σ with
  | (.ret none, l, σ) => (.ret none, { s with Latency := Int.tdiv l 2 }, σ)
  | (r, _, σ) => (r, s, σ)

/-- The method `PingTest` of request.go. -/
def PingTest (env : Env) (s : Server) (σ : World) : Run (Option Error) × Server × World :=
  PingTestContext env s σ

/-! ## Names used in the statements -/

/-- The URL that `PingTestContext` probes for a server. -/
def pingURL (s : Server) : String := beforeUpload s.URL ++ "/latency.txt"

/-- The request that `PingTestContext` builds for a server. -/
def pingRequest (s : Server) : Request :=
  { Method := "GET", URL := pingURL s, ContentLength := 0, Header := [] }

/-- The state after one successful probe of the URL `u`. -/
def afterProbe (env : Env) (u : String) (σ : World) : World :=
  { σ with
    built := σ.built ++ [("GET", u)]
    sent := σ.sent ++ [{ Method := "GET", URL := u, ContentLength := 0, Header := [] }]
    clock := σ.clock + env.elapsed σ.sent.length
    closed := σ.closed + 1 }

/-- The state in which `testHandler` starts to push: the queue runs, the rate
capture is started and the stop timer is armed. -/
def armed (env : Env) (c : Capture) (σ : World) : World :=
  { σ with
    queues := σ.queues ++ [(10, env.numCPU)]
    captures := σ.captures ++ [c]
    timers := σ.timers ++ [(testTime, [TimerAction.tickerStop, TimerAction.queueTerminate])] }

/-- Number of jobs that the queue runs among `n` pushes, the first of which is
push number `start`. -/
def jobsRun (env : Env) : Nat → Nat → Nat
  | _, 0 => 0
  | start, n + 1 => (if env.dispatched start then 1 else 0) + jobsRun env (start + 1) n

/-- Number of requests that the download jobs send among `n` pushes, the first
of which is push number `start`, when `k` requests have been built before: a
job sends its request when the queue runs it and the construction succeeds. -/
def requestsSent (env : Env) (url : String) : Nat → Nat → Nat → Nat
  | _, _, 0 => 0
  | k, start, n + 1 =>
    if env.dispatched start then
      (match env.newRequestErr k "GET" url with
        | none => 1
        | some _ => 0) + requestsSent env url (k + 1) (start + 1) n
    else requestsSent env url k (start + 1) n

/-- A transfer function that always returns, with the error and the state given by `f`. -/
def returning (f : String → Int → World → Option Error × World) : TransferFunc :=
  fun url w σ => (Run.ret (f url w σ).1, (f url w σ).2)

/-! ## Concrete inputs -/

/-- A server with the usual URL shape and no result yet. -/
def demoServer : Server :=
  { URL := "http://host/upload.php", Latency := 0, Jitter := 0, MinLatency := 0, MaxLatency := 0 }

/-- A server whose URL has a blank in the host name. -/
def blankServer : Server :=
  { URL := "http://bad host/upload.php", Latency := 0, Jitter := 0, MinLatency := 0,
    MaxLatency := 0 }

/-- A network on which nothing fails; the first three exchanges take 30 ms, 25 ms
and 40 ms, every job pushed is run. -/
def calmEnv : Env :=
  { newRequestErr := fun _ _ _ => none
    doErr := fun _ _ => none
    elapsed := fun k => [30, 25, 40].getD k 0 * Millisecond
    bodyErr := fun _ => none
    dispatched := fun _ => true
    numCPU := 4 }

/-- A network on which nothing fails and every exchange takes 11 s. -/
def slowEnv : Env :=
  { calmEnv with elapsed := fun _ => 11 * Second }

/-- A network on which the second exchange times out. -/
def lossyEnv : Env :=
  { calmEnv with doErr := fun k _ => if k = 1 then some { text := "timeout" } else none }

/-- A request constructor that rejects a URL with a blank in it, as Go's URL
parser does for a blank in the host name; every job pushed is run. -/
def strictEnv : Env :=
  { calmEnv with
    newRequestErr := fun _ _ url =>
      if url.data.contains ' ' then some { text := "invalid character in host name" } else none }

/-- A warm-up function that faults as soon as it is called. -/
def tripwire : WarmUpFunc := fun _ σ => (Run.fault "warm-up called", σ)

end Speedtest

/-! ## The latency probe -/

namespace Speedtest

/-- A probe whose construction and exchange both succeed: the loop goes on with
the smaller of the old minimum and the new round trip. -/
theorem pingLoop_ok (env : Env) (u : String) (n : Nat) (l : Duration) (σ : World)
    (h1 : env.newRequestErr σ.built.length "GET" u = none)
    (h2 : env.doErr σ.sent.length
      { Method := "GET", URL := u, ContentLength := 0, Header := [] } = none) :
    pingLoop env u (n + 1) l σ =
      pingLoop env u n (if env.elapsed σ.sent.length < l then env.elapsed σ.sent.length else l)
        (afterProbe env u σ) := by
  simp [pingLoop, NewRequestWithContext, Do, h1, h2, closeBody, afterProbe]

/-- A probe whose construction fails ends the loop with that error. -/
theorem pingLoop_newErr (env : Env) (u : String) (n : Nat) (l : Duration) (σ : World)
    (e : Error) (h1 : env.newRequestErr σ.built.length "GET" u = some e) :
    pingLoop env u (n + 1) l σ =
      (.ret (some e), l, { σ with built := σ.built ++ [("GET", u)] }) := by
  simp [pingLoop, NewRequestWithContext, h1]

/-- A probe whose exchange fails ends the loop with that error. -/
theorem pingLoop_doErr (env : Env) (u : String) (n : Nat) (l : Duration) (σ : World)
    (e : Error) (h1 : env.newRequestErr σ.built.length "GET" u = none)
    (h2 : env.doErr σ.sent.length
      { Method := "GET", URL := u, ContentLength := 0, Header := [] } = some e) :
    pingLoop env u (n + 1) l σ =
      (.ret (some e), l,
        { σ with
          built := σ.built ++ [("GET", u)]
          sent := σ.sent ++ [{ Method := "GET", URL := u, ContentLength := 0, Header := [] }]
          clock := σ.clock + env.elapsed σ.sent.length }) := by
  simp [pingLoop, NewRequestWithContext, Do, h1, h2]

/-- Keeping the smaller value three times in a row keeps the smallest of all. -/
theorem keepSmaller_three (t a b c : Int) :
    (if c < (if b < (if a < t then a else t) then b else (if a < t then a else t))
      then c else (if b < (if a < t then a else t) then b else (if a < t then a else t))) =
      min t (min a (min b c)) := by
  simp only [min_def]
  split_ifs <;> omega

/-- Three successful probes: the loop ends without error, with the smallest of
ten seconds and the three round trips. -/
theorem pingLoop_three_ok (env : Env) (u : String) (σ : World)
    (hs : ∀ t, t < 3 → env.newRequestErr (σ.built.length + t) "GET" u = none ∧
      env.doErr (σ.sent.length + t)
        { Method := "GET", URL := u, ContentLength := 0, Header := [] } = none) :
    pingLoop env u 3 (Second * 10) σ =
      (.ret none,
        min (Second * 10) (min (env.elapsed σ.sent.length)
          (min (env.elapsed (σ.sent.length + 1)) (env.elapsed (σ.sent.length + 2)))),
        afterProbe env u (afterProbe env u (afterProbe env u σ))) := by
  have h0 := hs 0 (by decide)
  have h1 := hs 1 (by decide)
  have h2 := hs 2 (by decide)
  simp only [Nat.add_zero] at h0
  rw [pingLoop_ok env u 2 _ σ h0.1 h0.2]
  rw [pingLoop_ok env u 1 _ (afterProbe env u σ)
    (by simpa [afterProbe] using h1.1) (by simpa [afterProbe] using h1.2)]
  rw [pingLoop_ok env u 0 _ (afterProbe env u (afterProbe env u σ))
    (by simpa [afterProbe, Nat.add_assoc] using h2.1)
    (by simpa [afterProbe, Nat.add_assoc] using h2.2)]
  simp only [pingLoop, afterProbe, List.length_append, List.length_singleton, Prod.mk.injEq,
    true_and, and_true]
  exact keepSmaller_three _ _ _ _

/-- The probe loop, when probe number `i` (from 0) is the first to fail: the
error is returned, `i + 1` requests have been built, and `i` or `i + 1` sent. -/
theorem pingLoop_fail (env : Env) (u : String) (e : Error) :
    ∀ (i n : Nat) (l : Duration) (σ : World), i < n →
    (∀ t, t < i → env.newRequestErr (σ.built.length + t) "GET" u = none ∧
      env.doErr (σ.sent.length + t)
        { Method := "GET", URL := u, ContentLength := 0, Header := [] } = none) →
    (env.newRequestErr (σ.built.length + i) "GET" u = some e ∨
      (env.newRequestErr (σ.built.length + i) "GET" u = none ∧
        env.doErr (σ.sent.length + i)
          { Method := "GET", URL := u, ContentLength := 0, Header := [] } = some e)) →
    (pingLoop env u n l σ).1 = .ret (some e) ∧
    (pingLoop env u n l σ).2.2.built = σ.built ++ List.replicate (i + 1) ("GET", u) ∧
    (env.newRequestErr (σ.built.length + i) "GET" u = some e →
      (pingLoop env u n l σ).2.2.sent.length = σ.sent.length + i) ∧
    (env.newRequestErr (σ.built.length + i) "GET" u = none →
      (pingLoop env u n l σ).2.2.sent.length = σ.sent.length + i + 1) := by
  intro i
  induction i with
  | zero =>
    intro n l σ hn _ hfail
    obtain ⟨m, rfl⟩ : ∃ m, n = m + 1 := ⟨n - 1, by omega⟩
    simp only [Nat.add_zero] at hfail ⊢
    rcases hfail with h | ⟨h1, h2⟩
    · rw [pingLoop_newErr env u m l σ e h]
      simp [h]
    · rw [pingLoop_doErr env u m l σ e h1 h2]
      simp [h1]
  | succ i ih =>
    intro n l σ hn hprev hfail
    obtain ⟨m, rfl⟩ : ∃ m, n = m + 1 := ⟨n - 1, by omega⟩
    have h0 := hprev 0 (by omega)
    simp only [Nat.add_zero] at h0
    rw [pingLoop_ok env u m l σ h0.1 h0.2]
    have hb : (afterProbe env u σ).built.length = σ.built.length + 1 := by simp [afterProbe]
    have hsn : (afterProbe env u σ).sent.length = σ.sent.length + 1 := by simp [afterProbe]
    have key := ih m (if env.elapsed σ.sent.length < l then env.elapsed σ.sent.length else l)
      (afterProbe env u σ) (by omega)
      (by
        intro t ht
        have := hprev (t + 1) (by omega)
        rw [hb, hsn]
        simpa [Nat.add_assoc, Nat.add_comm 1 t] using this)
      (by
        rw [hb, hsn]
        simpa [Nat.add_assoc, Nat.add_comm 1 i] using hfail)
    rw [hb, hsn] at key
    have e1 : σ.built.length + 1 + i = σ.built.length + (i + 1) := by omega
    rw [e1] at key
    refine ⟨key.1, ?_, ?_, ?_⟩
    · rw [key.2.1]
      simp [afterProbe, List.replicate_succ]
    · intro h
      rw [key.2.2.1 h]
      omega
    · intro h
      rw [key.2.2.2 h]
      omega

end Speedtest

namespace Speedtest

/-- When the probe loop ends with an error, `PingTestContext` returns it and
leaves the server as it was. -/
theorem PingTestContext_of_loop_err (env : Env) (s : Server) (σ : World) (e : Error)
    (h : (pingLoop env (pingURL s) 3 (Second * 10) σ).1 = .ret (some e)) :
    PingTestContext env s σ =
      (.ret (some e), s, (pingLoop env (pingURL s) 3 (Second * 10) σ).2.2) := by
  unfold PingTestContext
  unfold pingURL at h
  rcases hres : pingLoop env (beforeUpload s.URL ++ "/latency.txt") 3 (Second * 10) σ with
    ⟨r, l, σ1⟩
  rw [hres] at h
  simp only at h
  subst h
  simp [pingURL, hres]

/-- `PingTestContext` writes no field of the server other than `Latency`. -/
theorem PingTestContext_keeps_min_max (env : Env) (s : Server) (σ : World) :
    (PingTestContext env s σ).2.1.MinLatency = s.MinLatency ∧
    (PingTestContext env s σ).2.1.MaxLatency = s.MaxLatency ∧
    (PingTestContext env s σ).2.1.Jitter = s.Jitter ∧
    (PingTestContext env s σ).2.1.URL = s.URL := by
  unfold PingTestContext
  simp only
  split <;> simp

/-- C1 (amended): when the three probes of a `PingTestContext` call succeed, the
call returns nil and the server's `Latency` is half of the smallest of ten
seconds and the three round trips, the division rounding toward zero; for round
trips that are not negative this is the half rounded down. -/
theorem PingTestContext_latency (env : Env) (s : Server) (σ : World)
    (hs : ∀ t, t < 3 → env.newRequestErr (σ.built.length + t) "GET" (pingURL s) = none ∧
      env.doErr (σ.sent.length + t) (pingRequest s) = none) :
    (PingTestContext env s σ).1 = Run.ret none ∧
    (PingTestContext env s σ).2.1.Latency =
      Int.tdiv (min (Second * 10) (min (env.elapsed σ.sent.length)
        (min (env.elapsed (σ.sent.length + 1)) (env.elapsed (σ.sent.length + 2))))) 2 ∧
    (0 ≤ env.elapsed σ.sent.length → 0 ≤ env.elapsed (σ.sent.length + 1) →
      0 ≤ env.elapsed (σ.sent.length + 2) →
      (PingTestContext env s σ).2.1.Latency =
        min (Second * 10) (min (env.elapsed σ.sent.length)
          (min (env.elapsed (σ.sent.length + 1)) (env.elapsed (σ.sent.length + 2)))) / 2) := by
  have h := pingLoop_three_ok env (pingURL s) σ hs
  have hP : PingTestContext env s σ =
      (Run.ret none,
        { s with Latency := Int.tdiv (min (Second * 10) (min (env.elapsed σ.sent.length)
          (min (env.elapsed (σ.sent.length + 1)) (env.elapsed (σ.sent.length + 2))))) 2 },
        afterProbe env (pingURL s) (afterProbe env (pingURL s) (afterProbe env (pingURL s) σ))) := by
    unfold PingTestContext
    unfold pingURL at h
    simp [h, pingURL]
  rw [hP]
  refine ⟨rfl, rfl, ?_⟩
  intro h0 h1 h2
  have hm : (0 : Int) ≤ min (Second * 10) (min (env.elapsed σ.sent.length)
      (min (env.elapsed (σ.sent.length + 1)) (env.elapsed (σ.sent.length + 2)))) := by
    have : (0 : Int) ≤ Second * 10 := by decide
    exact le_min this (le_min h0 (le_min h1 h2))
  exact Int.tdiv_eq_ediv hm (by decide)

/-- Witness of C1 (amended): round trips of 30 ms, 25 ms and 40 ms give a latency of 12.5 ms. -/
theorem PingTestContext_latency_witness :
    (∀ t, t < 3 → calmEnv.newRequestErr (World.init.built.length + t) "GET"
        (pingURL demoServer) = none ∧
      calmEnv.doErr (World.init.sent.length + t) (pingRequest demoServer) = none) ∧
    (PingTestContext calmEnv demoServer World.init).1 = Run.ret none ∧
    (PingTestContext calmEnv demoServer World.init).2.1.Latency = 12500000 :=
  ⟨by decide,
    (PingTestContext_latency calmEnv demoServer World.init (by decide)).1,
    ((PingTestContext_latency calmEnv demoServer World.init (by decide)).2.1).trans
      (by decide)⟩

/-- Counterexample to C1 as stated: with three successful probes of 11 s each the
latency is 5 s, not half of the smallest round trip (5.5 s). -/
theorem slow_probes_latency_capped :
    (∀ t, t < 3 → slowEnv.newRequestErr (World.init.built.length + t) "GET"
        (pingURL demoServer) = none ∧
      slowEnv.doErr (World.init.sent.length + t) (pingRequest demoServer) = none) ∧
    (PingTestContext slowEnv demoServer World.init).1 = Run.ret none ∧
    (PingTestContext slowEnv demoServer World.init).2.1.Latency = 5 * Second ∧
    min (slowEnv.elapsed 0) (min (slowEnv.elapsed 1) (slowEnv.elapsed 2)) / 2
      = 5500 * Millisecond ∧
    (PingTestContext slowEnv demoServer World.init).2.1.Latency ≠
      min (slowEnv.elapsed 0) (min (slowEnv.elapsed 1) (slowEnv.elapsed 2)) / 2 := by
  decide

/-- C2 (the code at the failing input): after a successful `PingTestContext` call
with round trips of 30 ms, 25 ms and 40 ms, on a server whose min and max
latency were 0, both fields are still 0; only `Latency` has been written. -/
theorem PingTestContext_min_max_unset :
    (PingTestContext calmEnv demoServer World.init).1 = Run.ret none ∧
    (calmEnv.elapsed 0 = 30 * Millisecond ∧ calmEnv.elapsed 1 = 25 * Millisecond ∧
      calmEnv.elapsed 2 = 40 * Millisecond) ∧
    (PingTestContext calmEnv demoServer World.init).2.1.MinLatency = 0 ∧
    (PingTestContext calmEnv demoServer World.init).2.1.MaxLatency = 0 ∧
    (PingTestContext calmEnv demoServer World.init).2.1 =
      { demoServer with Latency := 12500000 } := by
  decide

/-- C3: if probe number `i` (counted from 0, so the claim's probe `i + 1`) is the
first to fail, at construction or at sending, `PingTestContext` returns exactly
that error, leaves the server untouched (no latency is written), has built
exactly `i + 1` requests, all for the probe URL, and has sent `i` of them
when the construction failed and `i + 1` when the sending failed. -/
theorem PingTestContext_probe_failure (env : Env) (s : Server) (σ : World) (i : Nat)
    (e : Error) (hi : i < 3)
    (hprev : ∀ t, t < i → env.newRequestErr (σ.built.length + t) "GET" (pingURL s) = none ∧
      env.doErr (σ.sent.length + t) (pingRequest s) = none)
    (hfail : env.newRequestErr (σ.built.length + i) "GET" (pingURL s) = some e ∨
      (env.newRequestErr (σ.built.length + i) "GET" (pingURL s) = none ∧
        env.doErr (σ.sent.length + i) (pingRequest s) = some e)) :
    (PingTestContext env s σ).1 = Run.ret (some e) ∧
    (PingTestContext env s σ).2.1 = s ∧
    (PingTestContext env s σ).2.2.built =
      σ.built ++ List.replicate (i + 1) ("GET", pingURL s) ∧
    (env.newRequestErr (σ.built.length + i) "GET" (pingURL s) = some e →
      (PingTestContext env s σ).2.2.sent.length = σ.sent.length + i) ∧
    (env.newRequestErr (σ.built.length + i) "GET" (pingURL s) = none →
      (PingTestContext env s σ).2.2.sent.length = σ.sent.length + i + 1) := by
  have key := pingLoop_fail env (pingURL s) e i 3 (Second * 10) σ hi hprev hfail
  rw [PingTestContext_of_loop_err env s σ e key.1]
  exact ⟨rfl, rfl, key.2.1, key.2.2.1, key.2.2.2⟩

/-- Witness of C3: the second probe times out; the call returns the timeout,
writes nothing to the server, and stops after two requests. -/
theorem PingTestContext_probe_failure_witness :
    (1 < 3 ∧
      (∀ t, t < 1 → lossyEnv.newRequestErr (World.init.built.length + t) "GET"
          (pingURL demoServer) = none ∧
        lossyEnv.doErr (World.init.sent.length + t) (pingRequest demoServer) = none) ∧
      lossyEnv.newRequestErr (World.init.built.length + 1) "GET" (pingURL demoServer) = none ∧
      lossyEnv.doErr (World.init.sent.length + 1) (pingRequest demoServer) =
        some { text := "timeout" }) ∧
    (PingTestContext lossyEnv demoServer World.init).1 = Run.ret (some { text := "timeout" }) ∧
    (PingTestContext lossyEnv demoServer World.init).2.1 = demoServer ∧
    (PingTestContext lossyEnv demoServer World.init).2.2.built.length = 2 ∧
    (PingTestContext lossyEnv demoServer World.init).2.2.sent.length = 2 :=
  have h := PingTestContext_probe_failure lossyEnv demoServer World.init 1
    { text := "timeout" } (by decide) (by decide) (Or.inr (by decide))
  ⟨by decide, h.1, h.2.1, by rw [h.2.2.1]; decide, by rw [h.2.2.2.2 (by decide)]; decide⟩

end Speedtest

/-! ## Cutting the server URL -/

namespace Speedtest

/-- A string without the character `x` that starts `b ++ x :: t` lies inside `b`. -/
theorem prefix_before_char (x : Char) (t : List Char) :
    ∀ (r b : List Char), x ∉ r → r <+: b ++ x :: t → r <+: b := by
  intro r
  induction r with
  | nil => intro b _ _; exact List.nil_prefix
  | cons a r ih =>
    intro b hx hp
    cases b with
    | nil =>
      rw [List.nil_append, List.cons_prefix_cons] at hp
      exact absurd (hp.1 ▸ List.mem_cons_self a r) hx
    | cons d b =>
      rw [List.cons_append, List.cons_prefix_cons] at hp
      rw [List.cons_prefix_cons]
      exact ⟨hp.1, ih b (fun h => hx (List.mem_cons_of_mem a h)) hp.2⟩

/-- The first occurrence of a separator `x :: r`, with `x` not in `r`, in
`b ++ x :: r` is at the end of `b` when `b` does not contain the separator. -/
theorem indexChars_append_self (x : Char) (r : List Char) (hx : x ∉ r) :
    ∀ b : List Char, ¬ (x :: r) <:+: b →
      indexChars (x :: r) (b ++ x :: r) = some b.length := by
  intro b
  induction b with
  | nil =>
    intro _
    simp [indexChars]
  | cons c b ih =>
    intro hb
    have hnp : ¬ (x :: r) <+: (c :: b) ++ x :: r := by
      intro hp
      rw [List.cons_append, List.cons_prefix_cons] at hp
      have h2 := prefix_before_char x r r b hx hp.2
      exact hb (List.IsPrefix.isInfix (List.cons_prefix_cons.mpr ⟨hp.1, h2⟩))
    have hb2 : ¬ (x :: r) <:+: b := fun h => hb (List.infix_cons h)
    have hf : (x :: r).isPrefixOf (c :: (b ++ x :: r)) = false := by
      rw [Bool.eq_false_iff]
      intro h
      exact hnp (List.isPrefixOf_iff_prefix.mp h)
    show indexChars (x :: r) (c :: (b ++ x :: r)) = some (b.length + 1)
    rw [indexChars, hf, ih hb2]
    simp

/-- The loop of `Split` always yields at least one piece. -/
theorem splitChars_ne_nil (sep : List Char) (fuel : Nat) (s : List Char) :
    splitChars sep fuel s ≠ [] := by
  cases fuel with
  | zero => simp [splitChars]
  | succ n =>
    simp only [splitChars]
    split <;> simp

/-- The bound on the number of cuts is never reached: for a separator that is
not empty, one more cut than the length of the string allows changes nothing. -/
theorem splitChars_enough (sep : List Char) (hsep : sep ≠ []) :
    ∀ (fuel : Nat) (s : List Char), s.length ≤ fuel →
      splitChars sep (fuel + 1) s = splitChars sep fuel s := by
  have hpos : 0 < sep.length := List.length_pos.mpr hsep
  intro fuel
  induction fuel with
  | zero =>
    intro s hs
    have : s = [] := List.length_eq_zero.mp (Nat.le_zero.mp hs)
    subst this
    cases sep with
    | nil => exact absurd rfl hsep
    | cons c cs => simp [splitChars, indexChars]
  | succ fuel ih =>
    intro s hs
    rw [splitChars, splitChars]
    cases h : indexChars sep s with
    | none => rfl
    | some m =>
      simp only
      rw [ih (s.drop (m + sep.length)) (by rw [List.length_drop]; omega)]

/-- With a separator that is not empty, `Split` yields at least one piece, so
that element 0 of the result exists. -/
theorem Split_ne_nil (s sep : String) (h : sep ≠ "") : Split s sep ≠ [] := by
  simp [Split, h, splitChars_ne_nil]

/-- The part of `b ++ "/upload.php"` before `/upload.php` is `b`, when `b` does not
contain `/upload.php`. -/
theorem beforeUpload_append (b : String) (hb : ¬ ("/upload.php".data <:+: b.data)) :
    beforeUpload (b ++ "/upload.php") = b := by
  have hsep : ("/upload.php" : String) ≠ "" := by decide
  have hidx : indexChars "/upload.php".data (b.data ++ "/upload.php".data) = some b.data.length :=
    indexChars_append_self '/' "upload.php".data (by decide) b.data hb
  have hlen : (b ++ "/upload.php").length = (b.length + 10) + 1 := by
    simp [String.length_append]
    rfl
  unfold beforeUpload Split
  rw [if_neg hsep, hlen, String.data_append]
  simp only [splitChars, hidx, List.map_cons, List.headD_cons, List.take_left]

end Speedtest

/-! ## The transfer requests and the push loop -/

namespace Speedtest

/-- The URL that `downloadRequest` asks for, for a base URL and a ladder entry. -/
theorem downloadRequest_spec (env : Env) (b : String) (w size : Int) (σ : World)
    (h : index dlSizes w = some size) :
    (∃ r, (downloadRequest env b w σ).1 = Run.ret r) ∧
    (downloadRequest env b w σ).2.built =
      σ.built ++ [("GET", b ++ "/random" ++ Itoa size ++ "x" ++ Itoa size ++ ".jpg")] ∧
    ((downloadRequest env b w σ).2.sent = σ.sent ∨
      (downloadRequest env b w σ).2.sent = σ.sent ++
        [{ Method := "GET", URL := b ++ "/random" ++ Itoa size ++ "x" ++ Itoa size ++ ".jpg",
           ContentLength := 0, Header := [] }]) ∧
    (env.newRequestErr σ.built.length "GET"
        (b ++ "/random" ++ Itoa size ++ "x" ++ Itoa size ++ ".jpg") ≠ none →
      (downloadRequest env b w σ).2.sent = σ.sent) ∧
    (downloadRequest env b w σ).2.chunks = σ.chunks ∧
    (downloadRequest env b w σ).2.pushed = σ.pushed := by
  unfold downloadRequest
  simp only [h, NewRequestWithContext, Do, DownloadSnapshotHandler, closeBody]
  cases h1 : env.newRequestErr σ.built.length "GET"
      (b ++ "/random" ++ Itoa size ++ "x" ++ Itoa size ++ ".jpg") with
  | some e => simp
  | none =>
    cases h2 : env.doErr σ.sent.length
        { Method := "GET", URL := b ++ "/random" ++ Itoa size ++ "x" ++ Itoa size ++ ".jpg",
          ContentLength := 0, Header := [] } with
    | some e => simp [h2]
    | none => simp [h2]

/-- What `uploadRequest` asks of the payload generator and declares on the request. -/
theorem uploadRequest_spec (env : Env) (url : String) (w size : Int) (σ : World)
    (h : index ulSizes w = some size) :
    (uploadRequest env url w σ).2.chunks = σ.chunks ++ [(size * 100 - 51) * 10] ∧
    (uploadRequest env url w σ).2.built = σ.built ++ [("POST", url)] ∧
    ((uploadRequest env url w σ).2.sent = σ.sent ∨
      (uploadRequest env url w σ).2.sent = σ.sent ++
        [{ Method := "POST", URL := url, ContentLength := (size * 100 - 51) * 10,
           Header := [("Content-Type", "application/octet-stream")] }]) ∧
    (uploadRequest env url w σ).2.pushed = σ.pushed := by
  unfold uploadRequest
  simp only [h, NewRequestWithContext, Do, UploadSnapshotHandler, copyDiscard, closeBody]
  have hh : headerSet [] "Content-Type" "application/octet-stream" =
      [("Content-Type", "application/octet-stream")] := by decide
  cases h1 : env.newRequestErr σ.built.length "POST" url with
  | some e => simp
  | none =>
    cases h2 : env.doErr σ.sent.length
        { Method := "POST", URL := url, ContentLength := (size * 100 - 51) * 10,
          Header := [("Content-Type", "application/octet-stream")] } with
    | some e => simp [h2, hh]
    | none => simp [h2, hh]

/-- A construction that fails makes `uploadRequest` fault. -/
theorem uploadRequest_nil_request (env : Env) (url : String) (w size : Int) (σ : World) (e : Error)
    (h : index ulSizes w = some size)
    (h1 : env.newRequestErr σ.built.length "POST" url = some e) :
    (uploadRequest env url w σ).1 = Run.fault "nil pointer dereference" ∧
    (uploadRequest env url w σ).2.sent = σ.sent := by
  unfold uploadRequest
  simp [h, NewRequestWithContext, UploadSnapshotHandler, h1]

end Speedtest

namespace Speedtest

/-- Every index from 0 to 9 selects an entry of the download ladder. -/
theorem index_dlSizes (w : Int) (h0 : 0 ≤ w) (h9 : w ≤ 9) : ∃ size, index dlSizes w = some size := by
  interval_cases w <;> exact ⟨_, rfl⟩

/-- Every index from 0 to 9 selects an entry of the upload ladder. -/
theorem index_ulSizes (w : Int) (h0 : 0 ≤ w) (h9 : w ≤ 9) : ∃ size, index ulSizes w = some size := by
  interval_cases w <;> exact ⟨_, rfl⟩

/-- The URL of a steady-state download job, with the size written out. -/
theorem steadyURL (b : String) :
    b ++ "/random" ++ Itoa 2000 ++ "x" ++ Itoa 2000 ++ ".jpg" = b ++ "/random2000x2000.jpg" := by
  have h : "/random" ++ Itoa 2000 ++ "x" ++ Itoa 2000 ++ ".jpg" = "/random2000x2000.jpg" := by
    decide
  rw [← h]
  simp only [String.append_assoc]

/-- A property of the state that a push keeps and the job keeps is kept by the push loop. -/
theorem pushLoop_keeps (env : Env) (job : Job) (P : World → Prop)
    (hpush : ∀ σ, P σ → P { σ with pushed := σ.pushed + 1 })
    (hjob : ∀ σ, P σ → P (job σ).2) :
    ∀ (n : Nat) (σ : World), P σ → P (pushLoop env job n σ).2 := by
  intro n
  induction n with
  | zero =>
    intro σ h
    simpa [pushLoop] using h
  | succ n ih =>
    intro σ h
    have hj := hjob _ (hpush σ h)
    unfold pushLoop
    by_cases hd : env.dispatched σ.pushed = true
    · simp only [hd, if_true]
      rcases hres : job { σ with pushed := σ.pushed + 1 } with ⟨r, σ2⟩
      rw [hres] at hj
      cases r with
      | ret a => exact ih σ2 hj
      | fault what => exact hj
    · simp only [hd]
      exact ih _ (hpush σ h)

/-- With a job that always returns, the push loop returns, after all its pushes. -/
theorem pushLoop_returns (env : Env) (job : Job)
    (hret : ∀ σ, ∃ a, (job σ).1 = Run.ret a)
    (hp : ∀ σ, (job σ).2.pushed = σ.pushed) :
    ∀ (n : Nat) (σ : World),
      (pushLoop env job n σ).1 = Run.ret () ∧ (pushLoop env job n σ).2.pushed = σ.pushed + n := by
  intro n
  induction n with
  | zero =>
    intro σ
    simp [pushLoop]
  | succ n ih =>
    intro σ
    unfold pushLoop
    by_cases hd : env.dispatched σ.pushed = true
    · simp only [hd, if_true]
      obtain ⟨a, ha⟩ := hret { σ with pushed := σ.pushed + 1 }
      have hq := hp { σ with pushed := σ.pushed + 1 }
      rcases hres : job { σ with pushed := σ.pushed + 1 } with ⟨r, σ2⟩
      rw [hres] at ha hq
      simp only at ha hq
      subst ha
      simp only
      refine ⟨(ih σ2).1, ?_⟩
      rw [(ih σ2).2, hq]
      omega
    · rw [if_neg hd]
      refine ⟨(ih _).1, ?_⟩
      rw [(ih _).2]
      simp only
      omega

/-- The push loop never returns a value other than `()`, and with at least one
iteration it pushes at least once. -/
theorem pushLoop_pushed_lt (env : Env) (job : Job)
    (hp : ∀ σ, (job σ).2.pushed = σ.pushed) (n : Nat) (σ : World) :
    σ.pushed < (pushLoop env job (n + 1) σ).2.pushed := by
  have mono : ∀ (m : Nat) (τ : World), σ.pushed + 1 ≤ τ.pushed →
      σ.pushed + 1 ≤ (pushLoop env job m τ).2.pushed :=
    pushLoop_keeps env job (fun τ => σ.pushed + 1 ≤ τ.pushed)
      (fun τ h => Nat.le_succ_of_le h) (fun τ h => by
        show σ.pushed + 1 ≤ (job τ).2.pushed
        rw [hp τ]
        exact h)
  have hq := hp { σ with pushed := σ.pushed + 1 }
  unfold pushLoop
  by_cases hd : env.dispatched σ.pushed = true
  · simp only [hd, if_true]
    rcases hres : job { σ with pushed := σ.pushed + 1 } with ⟨r, σ2⟩
    rw [hres] at hq
    simp only at hq
    cases r with
    | ret a => exact mono n σ2 (by rw [hq])
    | fault what =>
      show σ.pushed < σ2.pushed
      rw [hq]
      exact Nat.lt_succ_self _
  · simp only [hd]
    exact mono n _ (Nat.le_refl _)

end Speedtest

namespace Speedtest

/-- With a job that always returns, the push loop returns. -/
theorem pushLoop_ret (env : Env) (job : Job) (hret : ∀ σ, ∃ a, (job σ).1 = Run.ret a) :
    ∀ (n : Nat) (σ : World), (pushLoop env job n σ).1 = Run.ret () := by
  intro n
  induction n with
  | zero =>
    intro σ
    simp [pushLoop]
  | succ n ih =>
    intro σ
    unfold pushLoop
    by_cases hd : env.dispatched σ.pushed = true
    · rw [if_pos hd]
      obtain ⟨a, ha⟩ := hret { σ with pushed := σ.pushed + 1 }
      rcases hres : job { σ with pushed := σ.pushed + 1 } with ⟨r, σ2⟩
      rw [hres] at ha
      simp only at ha
      subst ha
      exact ih σ2
    · rw [if_neg hd]
      exact ih _

/-- What `testHandler` does before its loop. -/
theorem testHandler_eq (env : Env) (c : Capture) (job : Job) (σ : World) :
    testHandler env (rateCapture c) job σ = pushLoop env job 1000 (armed env c σ) := rfl

/-- After a `testHandler` that returned, the test returns nil. -/
theorem returnNil_of_ret (r : Run Unit × World) (h : r.1 = Run.ret ()) :
    returnNil r = (Run.ret none, r.2) := by
  rcases r with ⟨a, σ⟩
  simp only at h
  subst h
  rfl

/-- The test never returns an error, and ends in the state `testHandler` left. -/
theorem returnNil_spec (r : Run Unit × World) :
    (∀ e, (returnNil r).1 ≠ Run.ret (some e)) ∧ (returnNil r).2 = r.2 := by
  rcases r with ⟨a, σ⟩
  cases a <;> simp [returnNil]

/-- Dropping the error of a call that returned: the job returns, in the same state. -/
theorem discardError_spec (r : Run (Option Error) × World) :
    (discardError r).2 = r.2 ∧ ((∃ a, r.1 = Run.ret a) → ∃ u, (discardError r).1 = Run.ret u) := by
  rcases r with ⟨a, σ⟩
  cases a <;> simp [discardError]

end Speedtest

/-! ## The throughput tests -/

namespace Speedtest

/-- The steady-state download job always returns and pushes nothing. -/
theorem downloadJob_spec (env : Env) (u : String) (σ : World) :
    (∃ a, (discardError (downloadRequest env u 5 σ)).1 = Run.ret a) ∧
    (discardError (downloadRequest env u 5 σ)).2.pushed = σ.pushed ∧
    (discardError (downloadRequest env u 5 σ)).2.built =
      σ.built ++ [("GET", u ++ "/random2000x2000.jpg")] ∧
    ((discardError (downloadRequest env u 5 σ)).2.sent = σ.sent ∨
      (discardError (downloadRequest env u 5 σ)).2.sent = σ.sent ++
        [{ Method := "GET", URL := u ++ "/random2000x2000.jpg", ContentLength := 0,
           Header := [] }]) ∧
    (env.newRequestErr σ.built.length "GET" (u ++ "/random2000x2000.jpg") ≠ none →
      (discardError (downloadRequest env u 5 σ)).2.sent = σ.sent) := by
  have h := downloadRequest_spec env u 5 2000 σ rfl
  rw [steadyURL] at h
  have d := discardError_spec (downloadRequest env u 5 σ)
  rw [d.1]
  exact ⟨d.2 h.1, h.2.2.2.2.2, h.2.1, h.2.2.1, h.2.2.2.1⟩

/-- C4: whatever the transfer function handed to `downloadTestContext` or
`uploadTestContext` returns on each of its calls, an error on every call
included, the test returns nil; and with the transfer functions of request.go,
`DownloadTest` returns nil and `UploadTest` never returns an error. -/
theorem transfer_errors_discarded (env : Env) (s : Server) (savingMode : Bool)
    (warmUp : WarmUpFunc) (f : String → Int → World → Option Error × World) (σ : World) :
    (downloadTestContext env s savingMode warmUp (returning f) σ).1 = Run.ret none ∧
    (uploadTestContext env s savingMode warmUp (returning f) σ).1 = Run.ret none ∧
    (DownloadTest env s savingMode σ).1 = Run.ret none ∧
    (∀ e, (UploadTest env s savingMode σ).1 ≠ Run.ret (some e)) := by
  refine ⟨?_, ?_, ?_, ?_⟩
  · unfold downloadTestContext
    rw [returnNil_of_ret _ (by
      rw [testHandler_eq]
      exact pushLoop_ret env _ (fun τ => ⟨(), rfl⟩) 1000 _)]
  · unfold uploadTestContext
    rw [returnNil_of_ret _ (by
      rw [testHandler_eq]
      exact pushLoop_ret env _ (fun τ => ⟨(), rfl⟩) 1000 _)]
  · unfold DownloadTest downloadTestContext
    rw [returnNil_of_ret _ (by
      rw [testHandler_eq]
      exact pushLoop_ret env _ (fun τ => (downloadJob_spec env _ τ).1) 1000 _)]
  · unfold UploadTest uploadTestContext
    exact (returnNil_spec _).1

end Speedtest

namespace Speedtest

/-- The request constructor of `strictEnv` rejects the URLs made from `blankServer`. -/
theorem strictEnv_rejects (k : Nat) :
    strictEnv.newRequestErr k "GET" (beforeUpload blankServer.URL ++ "/random2000x2000.jpg") ≠
      none := by
  show (if (beforeUpload blankServer.URL ++ "/random2000x2000.jpg").data.contains ' '
    then some ({ text := "invalid character in host name" } : Error) else none) ≠ none
  decide

/-- C6 (amended): for every size index from 0 to 9, `uploadRequest` asks the payload
generator for `(ulSizes[w] * 100 - 51) * 10` bytes, which is `ulSizes[w] * 1000 - 510`,
and a request that it sends declares that `Content-Length`. -/
theorem uploadRequest_body_length (env : Env) (url : String) (w : Int) (σ : World)
    (h0 : 0 ≤ w) (h9 : w ≤ 9) :
    ∃ size, index ulSizes w = some size ∧
      (uploadRequest env url w σ).2.chunks = σ.chunks ++ [size * 1000 - 510] ∧
      ((uploadRequest env url w σ).2.sent = σ.sent ∨
        (uploadRequest env url w σ).2.sent = σ.sent ++
          [{ Method := "POST", URL := url, ContentLength := size * 1000 - 510,
             Header := [("Content-Type", "application/octet-stream")] }]) := by
  obtain ⟨size, hsize⟩ := index_ulSizes w h0 h9
  have h := uploadRequest_spec env url w size σ hsize
  have e : (size * 100 - 51) * 10 = size * 1000 - 510 := by ring
  rw [e] at h
  exact ⟨size, hsize, h.1, h.2.2.1⟩

/-- Witness of C6 (amended): the steady-state index 5, entry 1500, asks for 1499490 bytes. -/
theorem uploadRequest_body_length_witness :
    ((0 : Int) ≤ 5 ∧ (5 : Int) ≤ 9) ∧
    ∃ size, index ulSizes 5 = some size ∧
      (uploadRequest calmEnv "http://host/upload.php" 5 World.init).2.chunks =
        World.init.chunks ++ [size * 1000 - 510] ∧
      ((uploadRequest calmEnv "http://host/upload.php" 5 World.init).2.sent = World.init.sent ∨
        (uploadRequest calmEnv "http://host/upload.php" 5 World.init).2.sent = World.init.sent ++
          [{ Method := "POST", URL := "http://host/upload.php", ContentLength := size * 1000 - 510,
             Header := [("Content-Type", "application/octet-stream")] }]) :=
  ⟨by decide,
    uploadRequest_body_length calmEnv "http://host/upload.php" 5 World.init (by decide)
      (by decide)⟩

/-- Counterexample to C6 as stated: for index 0 the ladder entry is 100 kB, and the
size asked of the payload generator, which is also the declared `Content-Length`
of the request sent, is 99490 bytes, not 100000. -/
theorem uploadRequest_body_not_ladder_entry :
    index ulSizes 0 = some 100 ∧
    (uploadRequest calmEnv "http://host/upload.php" 0 World.init).2.chunks = [99490] ∧
    (uploadRequest calmEnv "http://host/upload.php" 0 World.init).2.sent.map
      (fun q => q.ContentLength) = [99490] ∧
    (99490 : Int) ≠ 100 * 1000 := by
  decide

end Speedtest

namespace Speedtest

/-- The requests built during the push loop of the download test: one per job
that the queue runs, each for the steady-state URL. -/
theorem pushLoop_download_built (env : Env) (u : String) :
    ∀ (n : Nat) (τ : World),
      (pushLoop env (fun σ => discardError (downloadRequest env u 5 σ)) n τ).2.built =
        τ.built ++ List.replicate (jobsRun env τ.pushed n) ("GET", u ++ "/random2000x2000.jpg") := by
  intro n
  induction n with
  | zero =>
    intro τ
    simp [pushLoop, jobsRun]
  | succ n ih =>
    intro τ
    unfold pushLoop
    by_cases hd : env.dispatched τ.pushed = true
    · rw [if_pos hd]
      have hj := downloadJob_spec env u { τ with pushed := τ.pushed + 1 }
      obtain ⟨a, ha⟩ := hj.1
      rcases hres : discardError (downloadRequest env u 5 { τ with pushed := τ.pushed + 1 }) with
        ⟨r, σ2⟩
      rw [hres] at ha hj
      simp only at ha hj
      subst ha
      simp only
      rw [ih σ2, hj.2.1, hj.2.2.1]
      simp [jobsRun, hd, List.replicate_succ, Nat.add_comm 1]
    · rw [if_neg hd]
      rw [ih]
      simp [jobsRun, hd]

/-- The requests built by `DownloadTest`: one per job run, each a GET for the
steady-state URL under the part of the server URL before `/upload.php`. -/
theorem DownloadTest_built (env : Env) (s : Server) (savingMode : Bool) (σ : World) :
    (DownloadTest env s savingMode σ).2.built =
      σ.built ++ List.replicate (jobsRun env σ.pushed 1000)
        ("GET", beforeUpload s.URL ++ "/random2000x2000.jpg") := by
  unfold DownloadTest downloadTestContext
  rw [(returnNil_spec _).2, testHandler_eq, pushLoop_download_built]
  rfl

/-- The payloads asked for by `UploadTest`: each of 1499490 bytes, the size for index 5. -/
theorem UploadTest_chunks (env : Env) (s : Server) (savingMode : Bool) (σ : World) :
    ∀ c, c ∈ (UploadTest env s savingMode σ).2.chunks → c ∈ σ.chunks ∨ c = 1499490 := by
  unfold UploadTest uploadTestContext
  rw [(returnNil_spec _).2, testHandler_eq]
  exact pushLoop_keeps env (fun τ => discardError (uploadRequest env s.URL 5 τ))
    (fun τ => ∀ c, c ∈ τ.chunks → c ∈ σ.chunks ∨ c = 1499490)
    (fun τ h => h)
    (fun τ h c hc => by
      rw [(discardError_spec _).1, (uploadRequest_spec env s.URL 5 1500 τ rfl).1,
        List.mem_append, List.mem_singleton] at hc
      rcases hc with hc | hc
      · exact h c hc
      · exact Or.inr (hc.trans (by decide)))
    1000 (armed env Capture.upload σ) (fun c hc => Or.inl hc)

/-- With a request constructor that accepts the URL, `uploadRequest` returns. -/
theorem uploadRequest_returns (env : Env) (url : String) (w size : Int) (σ : World)
    (h : index ulSizes w = some size)
    (h1 : env.newRequestErr σ.built.length "POST" url = none) :
    ∃ r, (uploadRequest env url w σ).1 = Run.ret r := by
  unfold uploadRequest
  simp only [h, NewRequestWithContext, Do, UploadSnapshotHandler, copyDiscard, closeBody, h1]
  have hh : headerSet [] "Content-Type" "application/octet-stream" =
      [("Content-Type", "application/octet-stream")] := by decide
  cases h2 : env.doErr σ.sent.length
      { Method := "POST", URL := url, ContentLength := (size * 100 - 51) * 10,
        Header := [("Content-Type", "application/octet-stream")] } with
  | some e => simp [h2, hh]
  | none => simp [h2, hh]

/-- Whatever warm-up function it is handed, the download test with the transfer
function of request.go returns nil after 1000 pushes. -/
theorem downloadTestContext_returns (env : Env) (s : Server) (savingMode : Bool)
    (warmUp : WarmUpFunc) (σ : World) :
    (downloadTestContext env s savingMode warmUp (downloadRequest env) σ).1 = Run.ret none ∧
    (downloadTestContext env s savingMode warmUp (downloadRequest env) σ).2.pushed =
      σ.pushed + 1000 := by
  have hret := pushLoop_returns env
    (fun τ => discardError (downloadRequest env (beforeUpload s.URL) 5 τ))
    (fun τ => (downloadJob_spec env _ τ).1) (fun τ => (downloadJob_spec env _ τ).2.1) 1000
    (armed env Capture.download σ)
  unfold downloadTestContext
  rw [returnNil_of_ret _ (by rw [testHandler_eq]; exact hret.1)]
  exact ⟨rfl, hret.2⟩

/-- Whatever warm-up function it is handed, the upload test with the transfer
function of request.go returns nil after 1000 pushes, when the request
constructor accepts the server URL. -/
theorem uploadTestContext_returns (env : Env) (s : Server) (savingMode : Bool)
    (warmUp : WarmUpFunc) (σ : World) (hok : ∀ k, env.newRequestErr k "POST" s.URL = none) :
    (uploadTestContext env s savingMode warmUp (uploadRequest env) σ).1 = Run.ret none ∧
    (uploadTestContext env s savingMode warmUp (uploadRequest env) σ).2.pushed =
      σ.pushed + 1000 := by
  have hret := pushLoop_returns env
    (fun τ => discardError (uploadRequest env s.URL 5 τ))
    (fun τ => (discardError_spec _).2 (uploadRequest_returns env s.URL 5 1500 τ rfl (hok _)))
    (fun τ => by
      show (discardError (uploadRequest env s.URL 5 τ)).2.pushed = τ.pushed
      rw [(discardError_spec _).1]
      exact (uploadRequest_spec env s.URL 5 1500 τ rfl).2.2.2) 1000
    (armed env Capture.upload σ)
  unfold uploadTestContext
  rw [returnNil_of_ret _ (by rw [testHandler_eq]; exact hret.1)]
  exact ⟨rfl, hret.2⟩

/-- When the queue runs every job, the number of jobs run is the number of pushes. -/
theorem jobsRun_all (env : Env) (h : ∀ i, env.dispatched i = true) :
    ∀ (n start : Nat), jobsRun env start n = n := by
  intro n
  induction n with
  | zero => intro start; rfl
  | succ n ih =>
    intro start
    simp only [jobsRun, h, if_true, ih]
    omega

/-- C8 (the code at the failing input): a download and an upload test that are
handed a warm-up function that faults when called both return nil, so it was
never called; and with the warm-up functions of request.go, which ask for the
size of index 2 (750) and of index 4 (999490 bytes), all 1000 jobs are pushed
but no request for the warm-up URL is built and no warm-up payload is asked for. -/
theorem warmUp_never_called :
    (tripwire "http://host" World.init).1 = Run.fault "warm-up called" ∧
    (downloadTestContext calmEnv demoServer true tripwire (downloadRequest calmEnv)
      World.init).1 = Run.ret none ∧
    (uploadTestContext calmEnv demoServer true tripwire (uploadRequest calmEnv)
      World.init).1 = Run.ret none ∧
    (dlWarmUp calmEnv "http://host" World.init).2.built =
      [("GET", "http://host/random750x750.jpg")] ∧
    (ulWarmUp calmEnv "http://host/upload.php" World.init).2.chunks = [999490] ∧
    (DownloadTest calmEnv demoServer true World.init).2.pushed = 1000 ∧
    (UploadTest calmEnv demoServer true World.init).2.pushed = 1000 ∧
    ("GET", "http://host/random750x750.jpg") ∉
      (DownloadTest calmEnv demoServer true World.init).2.built ∧
    (999490 : Int) ∉ (UploadTest calmEnv demoServer true World.init).2.chunks := by
  refine ⟨rfl, (downloadTestContext_returns calmEnv demoServer true tripwire World.init).1,
    (uploadTestContext_returns calmEnv demoServer true tripwire World.init (fun _ => rfl)).1,
    by decide, by decide,
    ?_, ?_, ?_, ?_⟩
  · unfold DownloadTest
    rw [(downloadTestContext_returns calmEnv demoServer true (dlWarmUp calmEnv) World.init).2]
    rfl
  · unfold UploadTest
    rw [(uploadTestContext_returns calmEnv demoServer true (ulWarmUp calmEnv) World.init
      (fun _ => rfl)).2]
    rfl
  · intro hmem
    rw [DownloadTest_built, List.mem_append] at hmem
    rcases hmem with hmem | hmem
    · exact absurd hmem (by decide)
    · exact absurd (List.eq_of_mem_replicate hmem) (by decide)
  · intro hmem
    rcases UploadTest_chunks calmEnv demoServer true World.init _ hmem with h | h
    · exact absurd h (by decide)
    · exact absurd h (by decide)

/-- C10 (the code at the failing input): with a URL whose request construction
fails, `uploadRequest` faults on the absent request instead of returning the
error, while `downloadRequest` on the same kind of URL returns the error. -/
theorem uploadRequest_faults_on_bad_URL :
    strictEnv.newRequestErr 0 "POST" blankServer.URL =
      some { text := "invalid character in host name" } ∧
    (uploadRequest strictEnv blankServer.URL 5 World.init).1 =
      Run.fault "nil pointer dereference" ∧
    (uploadRequest strictEnv blankServer.URL 5 World.init).2.sent = [] ∧
    (downloadRequest strictEnv "http://bad host" 5 World.init).1 =
      Run.ret (some { text := "invalid character in host name" }) := by
  decide

/-- Counterexample to C5 as stated: the URL of `blankServer` makes the construction
of both transfer requests fail, yet `DownloadTest` returns nil, with all 1000 jobs
pushed, and `UploadTest` returns no error and has pushed a job. -/
theorem DownloadTest_bad_URL_returns_nil :
    strictEnv.newRequestErr 0 "GET" (beforeUpload blankServer.URL ++ "/random2000x2000.jpg") =
      some { text := "invalid character in host name" } ∧
    strictEnv.newRequestErr 0 "POST" blankServer.URL =
      some { text := "invalid character in host name" } ∧
    (DownloadTest strictEnv blankServer true World.init).1 = Run.ret none ∧
    (DownloadTest strictEnv blankServer true World.init).2.pushed = 1000 ∧
    (UploadTest strictEnv blankServer true World.init).1 = Run.fault "nil pointer dereference" ∧
    (UploadTest strictEnv blankServer true World.init).2.pushed = 1 := by
  refine ⟨by decide, by decide, ?_, ?_, by decide, by decide⟩
  · unfold DownloadTest
    exact (downloadTestContext_returns strictEnv blankServer true (dlWarmUp strictEnv)
      World.init).1
  · unfold DownloadTest
    rw [(downloadTestContext_returns strictEnv blankServer true (dlWarmUp strictEnv)
      World.init).2]
    rfl

/-- The stop timer of `testHandler`: exactly one timer is armed, for ten seconds,
and what it does on firing is to stop the ticker and then terminate the queue. -/
theorem armed_timer (env : Env) (c : Capture) (σ : World) :
    testTime = 10000000000 ∧
    (armed env c σ).timers =
      σ.timers ++ [(10 * Second, [TimerAction.tickerStop, TimerAction.queueTerminate])] := by
  exact ⟨by decide, rfl⟩

/-- What `downloadRequest` sends: the request it built when the construction
succeeded, whether or not the exchange then fails, and nothing otherwise. -/
theorem downloadRequest_sent (env : Env) (b : String) (w size : Int) (σ : World)
    (h : index dlSizes w = some size) :
    (env.newRequestErr σ.built.length "GET"
        (b ++ "/random" ++ Itoa size ++ "x" ++ Itoa size ++ ".jpg") = none →
      (downloadRequest env b w σ).2.sent = σ.sent ++
        [{ Method := "GET", URL := b ++ "/random" ++ Itoa size ++ "x" ++ Itoa size ++ ".jpg",
           ContentLength := 0, Header := [] }]) ∧
    (env.newRequestErr σ.built.length "GET"
        (b ++ "/random" ++ Itoa size ++ "x" ++ Itoa size ++ ".jpg") ≠ none →
      (downloadRequest env b w σ).2.sent = σ.sent) := by
  unfold downloadRequest
  simp only [h, NewRequestWithContext, Do, DownloadSnapshotHandler, closeBody]
  cases h1 : env.newRequestErr σ.built.length "GET"
      (b ++ "/random" ++ Itoa size ++ "x" ++ Itoa size ++ ".jpg") with
  | some e => simp
  | none =>
    cases h2 : env.doErr σ.sent.length
        { Method := "GET", URL := b ++ "/random" ++ Itoa size ++ "x" ++ Itoa size ++ ".jpg",
          ContentLength := 0, Header := [] } with
    | some e => simp [h2]
    | none => simp [h2]

/-- The steady-state download job sends its request when the construction succeeds. -/
theorem downloadJob_sent (env : Env) (u : String) (σ : World)
    (h1 : env.newRequestErr σ.built.length "GET" (u ++ "/random2000x2000.jpg") = none) :
    (discardError (downloadRequest env u 5 σ)).2.sent = σ.sent ++
      [{ Method := "GET", URL := u ++ "/random2000x2000.jpg", ContentLength := 0,
         Header := [] }] := by
  have h := downloadRequest_sent env u 5 2000 σ rfl
  rw [steadyURL] at h
  rw [(discardError_spec _).1]
  exact h.1 h1

/-- The requests sent during the push loop of the download test: one per job
that the queue runs and whose request construction succeeds. -/
theorem pushLoop_download_sent (env : Env) (u : String) :
    ∀ (n : Nat) (τ : World),
      (pushLoop env (fun σ => discardError (downloadRequest env u 5 σ)) n τ).2.sent =
        τ.sent ++ List.replicate
          (requestsSent env (u ++ "/random2000x2000.jpg") τ.built.length τ.pushed n)
          { Method := "GET", URL := u ++ "/random2000x2000.jpg", ContentLength := 0,
            Header := [] } := by
  intro n
  induction n with
  | zero =>
    intro τ
    simp [pushLoop, requestsSent]
  | succ n ih =>
    intro τ
    unfold pushLoop
    by_cases hd : env.dispatched τ.pushed = true
    · rw [if_pos hd]
      have hj := downloadJob_spec env u { τ with pushed := τ.pushed + 1 }
      have hs := downloadJob_sent env u { τ with pushed := τ.pushed + 1 }
      obtain ⟨a, ha⟩ := hj.1
      rcases hres : discardError (downloadRequest env u 5 { τ with pushed := τ.pushed + 1 }) with
        ⟨r, σ2⟩
      rw [hres] at ha hj hs
      simp only at ha hj hs
      subst ha
      simp only
      have hlen : σ2.built.length = τ.built.length + 1 := by
        rw [hj.2.2.1]
        simp
      rw [ih σ2, hj.2.1, hlen]
      cases h1 : env.newRequestErr τ.built.length "GET" (u ++ "/random2000x2000.jpg") with
      | none =>
        rw [hs h1]
        simp [requestsSent, hd, h1, List.replicate_succ, Nat.add_comm 1]
      | some e =>
        rw [hj.2.2.2.2 (by rw [h1]; simp)]
        simp [requestsSent, hd, h1]
    · rw [if_neg hd, ih]
      simp [requestsSent, hd]

/-- The requests sent by `DownloadTest`: one GET for the steady-state URL per
job that the queue runs and whose request construction succeeds. -/
theorem DownloadTest_sent (env : Env) (s : Server) (savingMode : Bool) (σ : World) :
    (DownloadTest env s savingMode σ).2.sent =
      σ.sent ++ List.replicate
        (requestsSent env (beforeUpload s.URL ++ "/random2000x2000.jpg") σ.built.length
          σ.pushed 1000)
        { Method := "GET", URL := beforeUpload s.URL ++ "/random2000x2000.jpg",
          ContentLength := 0, Header := [] } := by
  unfold DownloadTest downloadTestContext
  rw [(returnNil_spec _).2, testHandler_eq, pushLoop_download_sent]
  rfl

/-- When the queue runs every job and no construction fails, every push sends a request. -/
theorem requestsSent_all (env : Env) (url : String) (h : ∀ i, env.dispatched i = true)
    (hok : ∀ k, env.newRequestErr k "GET" url = none) :
    ∀ (n k start : Nat), requestsSent env url k start n = n := by
  intro n
  induction n with
  | zero => intro k start; rfl
  | succ n ih =>
    intro k start
    simp only [requestsSent, h, if_true, ih, hok]
    omega

/-- The requests built during the push loop of the upload test: at most one
per job that the queue runs, each a POST to the server URL, and none otherwise. -/
theorem pushLoop_upload_built (env : Env) (u : String) :
    ∀ (n : Nat) (τ : World), ∃ k, k ≤ jobsRun env τ.pushed n ∧
      (pushLoop env (fun σ => discardError (uploadRequest env u 5 σ)) n τ).2.built =
        τ.built ++ List.replicate k ("POST", u) := by
  intro n
  induction n with
  | zero =>
    intro τ
    exact ⟨0, Nat.le_refl _, by simp [pushLoop]⟩
  | succ n ih =>
    intro τ
    unfold pushLoop
    by_cases hd : env.dispatched τ.pushed = true
    · rw [if_pos hd]
      have hu := uploadRequest_spec env u 5 1500 { τ with pushed := τ.pushed + 1 } rfl
      have hdis := (discardError_spec (uploadRequest env u 5 { τ with pushed := τ.pushed + 1 })).1
      rcases hres : discardError (uploadRequest env u 5 { τ with pushed := τ.pushed + 1 }) with
        ⟨r, σ2⟩
      rw [hres] at hdis
      simp only at hdis
      rw [← hdis] at hu
      simp only at hu
      cases r with
      | ret a =>
        obtain ⟨k, hk, hb⟩ := ih σ2
        refine ⟨k + 1, ?_, ?_⟩
        · rw [hu.2.2.2] at hk
          simp only [jobsRun, hd, if_true]
          omega
        · simp only
          rw [hb, hu.2.1]
          simp [List.replicate_succ]
      | fault what =>
        refine ⟨1, ?_, ?_⟩
        · simp only [jobsRun, hd, if_true]
          omega
        · simp only
          rw [hu.2.1]
          rfl
    · rw [if_neg hd]
      obtain ⟨k, hk, hb⟩ := ih { τ with pushed := τ.pushed + 1 }
      exact ⟨k, by simp only [jobsRun, hd]; simpa using hk, hb⟩

end Speedtest

namespace Speedtest

/-- The requests built by `UploadTest`: at most one per job that the queue runs,
each a POST to the server URL. -/
theorem UploadTest_built (env : Env) (s : Server) (savingMode : Bool) (σ : World) :
    ∃ k, k ≤ jobsRun env σ.pushed 1000 ∧
      (UploadTest env s savingMode σ).2.built = σ.built ++ List.replicate k ("POST", s.URL) := by
  unfold UploadTest uploadTestContext
  rw [(returnNil_spec _).2, testHandler_eq]
  exact pushLoop_upload_built env s.URL 1000 (armed env Capture.upload σ)

/-- The request constructor of `strictEnv` rejects the URL of `blankServer`. -/
theorem strictEnv_rejects_upload (k : Nat) :
    strictEnv.newRequestErr k "POST" blankServer.URL ≠ none := by
  show (if blankServer.URL.data.contains ' '
    then some ({ text := "invalid character in host name" } : Error) else none) ≠ none
  decide

/-- C5 (amended): for a server whose URL makes every construction of a transfer
request fail, `DownloadTest` returns nil, after all 1000 jobs have been pushed
and without any request sent, and it builds its requests inside the jobs:
exactly one per job that the queue runs. `UploadTest` never returns an error,
has pushed a job when it ends, sends no request, and builds its requests
inside the jobs too: at most one per job that the queue runs. -/
theorem transfer_tests_with_bad_URL (env : Env) (s : Server) (savingMode : Bool) (σ : World)
    (hbad : ∀ k, env.newRequestErr k "GET" (beforeUpload s.URL ++ "/random2000x2000.jpg") ≠ none)
    (hbadU : ∀ k, env.newRequestErr k "POST" s.URL ≠ none) :
    (DownloadTest env s savingMode σ).1 = Run.ret none ∧
    (DownloadTest env s savingMode σ).2.pushed = σ.pushed + 1000 ∧
    (DownloadTest env s savingMode σ).2.sent = σ.sent ∧
    (∀ e, (UploadTest env s savingMode σ).1 ≠ Run.ret (some e)) ∧
    σ.pushed < (UploadTest env s savingMode σ).2.pushed ∧
    (DownloadTest env s savingMode σ).2.built =
      σ.built ++ List.replicate (jobsRun env σ.pushed 1000)
        ("GET", beforeUpload s.URL ++ "/random2000x2000.jpg") ∧
    (UploadTest env s savingMode σ).2.sent = σ.sent ∧
    (∃ k, k ≤ jobsRun env σ.pushed 1000 ∧
      (UploadTest env s savingMode σ).2.built =
        σ.built ++ List.replicate k ("POST", s.URL)) := by
  have hret := pushLoop_returns env
    (fun τ => discardError (downloadRequest env (beforeUpload s.URL) 5 τ))
    (fun τ => (downloadJob_spec env _ τ).1) (fun τ => (downloadJob_spec env _ τ).2.1) 1000
    (armed env Capture.download σ)
  have hsent := pushLoop_keeps env
    (fun τ => discardError (downloadRequest env (beforeUpload s.URL) 5 τ))
    (fun τ => τ.sent = σ.sent) (fun τ h => h)
    (fun τ h => by
      show (discardError (downloadRequest env (beforeUpload s.URL) 5 τ)).2.sent = σ.sent
      rw [(downloadJob_spec env _ τ).2.2.2.2 (hbad _)]
      exact h) 1000
    (armed env Capture.download σ) rfl
  have husent := pushLoop_keeps env
    (fun τ => discardError (uploadRequest env s.URL 5 τ))
    (fun τ => τ.sent = σ.sent) (fun τ h => h)
    (fun τ h => by
      show (discardError (uploadRequest env s.URL 5 τ)).2.sent = σ.sent
      obtain ⟨e, he⟩ := Option.ne_none_iff_exists'.mp (hbadU τ.built.length)
      rw [(discardError_spec _).1, (uploadRequest_nil_request env s.URL 5 1500 τ e rfl he).2]
      exact h) 1000
    (armed env Capture.upload σ) rfl
  have hD : DownloadTest env s savingMode σ =
      (Run.ret none, (pushLoop env
        (fun τ => discardError (downloadRequest env (beforeUpload s.URL) 5 τ)) 1000
        (armed env Capture.download σ)).2) := by
    unfold DownloadTest downloadTestContext
    rw [returnNil_of_ret _ (by rw [testHandler_eq]; exact hret.1)]
    rfl
  have hU : (UploadTest env s savingMode σ).2 =
      (pushLoop env (fun τ => discardError (uploadRequest env s.URL 5 τ)) 1000
        (armed env Capture.upload σ)).2 := by
    unfold UploadTest uploadTestContext
    rw [(returnNil_spec _).2]
    rfl
  refine ⟨by rw [hD], by rw [hD]; exact hret.2, by rw [hD]; exact hsent, ?_, ?_,
    DownloadTest_built env s savingMode σ, by rw [hU]; exact husent,
    UploadTest_built env s savingMode σ⟩
  · unfold UploadTest uploadTestContext
    exact (returnNil_spec _).1
  · rw [hU]
    exact pushLoop_pushed_lt env _ (fun τ => by
      show (discardError (uploadRequest env s.URL 5 τ)).2.pushed = τ.pushed
      rw [(discardError_spec _).1]
      exact (uploadRequest_spec env s.URL 5 1500 τ rfl).2.2.2) 999 (armed env Capture.upload σ)

/-- Witness of C5 (amended): a URL with a blank in the host name, on a network
whose queue runs every job. -/
theorem transfer_tests_with_bad_URL_witness :
    ((∀ k, strictEnv.newRequestErr k "GET"
        (beforeUpload blankServer.URL ++ "/random2000x2000.jpg") ≠ none) ∧
      (∀ k, strictEnv.newRequestErr k "POST" blankServer.URL ≠ none)) ∧
    (DownloadTest strictEnv blankServer true World.init).1 = Run.ret none ∧
    (DownloadTest strictEnv blankServer true World.init).2.pushed = World.init.pushed + 1000 ∧
    (DownloadTest strictEnv blankServer true World.init).2.sent = World.init.sent ∧
    (∀ e, (UploadTest strictEnv blankServer true World.init).1 ≠ Run.ret (some e)) ∧
    World.init.pushed < (UploadTest strictEnv blankServer true World.init).2.pushed ∧
    (DownloadTest strictEnv blankServer true World.init).2.built =
      World.init.built ++ List.replicate (jobsRun strictEnv World.init.pushed 1000)
        ("GET", beforeUpload blankServer.URL ++ "/random2000x2000.jpg") ∧
    (UploadTest strictEnv blankServer true World.init).2.sent = World.init.sent ∧
    (∃ k, k ≤ jobsRun strictEnv World.init.pushed 1000 ∧
      (UploadTest strictEnv blankServer true World.init).2.built =
        World.init.built ++ List.replicate k ("POST", blankServer.URL)) :=
  ⟨⟨strictEnv_rejects, strictEnv_rejects_upload⟩,
    transfer_tests_with_bad_URL strictEnv blankServer true World.init strictEnv_rejects
      strictEnv_rejects_upload⟩

/-- C7: for every base URL `b` and size index `w` from 0 to 9, `downloadRequest`
builds exactly one request, a GET for `b/random<W>x<W>.jpg` with `W` the decimal
form of `dlSizes[w]`; when the construction succeeds it sends exactly that
request, and when it fails it sends nothing. For a server URL
`b ++ "/upload.php"`, with `b` free of `/upload.php`, the download test builds one
request per job that the queue runs, each a GET for `b/random2000x2000.jpg`, and
sends exactly those of them whose construction succeeded. -/
theorem download_targets (env : Env) (b : String) (w : Int) (σ : World) (s : Server)
    (savingMode : Bool) (h0 : 0 ≤ w) (h9 : w ≤ 9) (hs : s.URL = b ++ "/upload.php")
    (hb : ¬ ("/upload.php".data <:+: b.data)) :
    (∃ size, index dlSizes w = some size ∧
      (downloadRequest env b w σ).2.built =
        σ.built ++ [("GET", b ++ "/random" ++ Itoa size ++ "x" ++ Itoa size ++ ".jpg")] ∧
      ((downloadRequest env b w σ).2.sent = σ.sent ∨
        (downloadRequest env b w σ).2.sent = σ.sent ++
          [{ Method := "GET", URL := b ++ "/random" ++ Itoa size ++ "x" ++ Itoa size ++ ".jpg",
             ContentLength := 0, Header := [] }]) ∧
      (env.newRequestErr σ.built.length "GET"
          (b ++ "/random" ++ Itoa size ++ "x" ++ Itoa size ++ ".jpg") = none →
        (downloadRequest env b w σ).2.sent = σ.sent ++
          [{ Method := "GET", URL := b ++ "/random" ++ Itoa size ++ "x" ++ Itoa size ++ ".jpg",
             ContentLength := 0, Header := [] }]) ∧
      (env.newRequestErr σ.built.length "GET"
          (b ++ "/random" ++ Itoa size ++ "x" ++ Itoa size ++ ".jpg") ≠ none →
        (downloadRequest env b w σ).2.sent = σ.sent)) ∧
    index dlSizes 5 = some 2000 ∧
    (DownloadTest env s savingMode σ).2.built =
      σ.built ++ List.replicate (jobsRun env σ.pushed 1000) ("GET", b ++ "/random2000x2000.jpg") ∧
    (∀ q, q ∈ (DownloadTest env s savingMode σ).2.sent → q ∈ σ.sent ∨
      q = { Method := "GET", URL := b ++ "/random2000x2000.jpg", ContentLength := 0,
            Header := [] }) ∧
    (DownloadTest env s savingMode σ).2.sent =
      σ.sent ++ List.replicate
        (requestsSent env (b ++ "/random2000x2000.jpg") σ.built.length σ.pushed 1000)
        { Method := "GET", URL := b ++ "/random2000x2000.jpg", ContentLength := 0,
          Header := [] } := by
  obtain ⟨size, hsize⟩ := index_dlSizes w h0 h9
  have h := downloadRequest_spec env b w size σ hsize
  have hsnd := downloadRequest_sent env b w size σ hsize
  have hcut : beforeUpload s.URL = b := by rw [hs]; exact beforeUpload_append b hb
  have hD : (DownloadTest env s savingMode σ).2 =
      (pushLoop env (fun τ => discardError (downloadRequest env b 5 τ)) 1000
        (armed env Capture.download σ)).2 := by
    unfold DownloadTest downloadTestContext
    rw [(returnNil_spec _).2, hcut]
    rfl
  refine ⟨⟨size, hsize, h.2.1, h.2.2.1, hsnd.1, hsnd.2⟩, rfl, ?_, ?_, ?_⟩
  · rw [DownloadTest_built, hcut]
  · rw [hD]
    exact pushLoop_keeps env (fun τ => discardError (downloadRequest env b 5 τ))
      (fun τ => ∀ q, q ∈ τ.sent → q ∈ σ.sent ∨
        q = { Method := "GET", URL := b ++ "/random2000x2000.jpg", ContentLength := 0,
              Header := [] })
      (fun τ h => h)
      (fun τ h q hq => by
        rcases (downloadJob_spec env b τ).2.2.2.1 with e | e
        · rw [e] at hq
          exact h q hq
        · rw [e, List.mem_append, List.mem_singleton] at hq
          rcases hq with hq | hq
          · exact h q hq
          · exact Or.inr hq)
      1000 (armed env Capture.download σ) (fun q hq => Or.inl hq)
  · rw [DownloadTest_sent, hcut]

/-- Witness of C7: the server `http://host/upload.php` on a network where nothing
fails and every one of the 1000 jobs is run: each call builds and sends its GET. -/
theorem download_targets_witness :
    ((0 : Int) ≤ 3 ∧ (3 : Int) ≤ 9 ∧ demoServer.URL = "http://host" ++ "/upload.php" ∧
      ¬ ("/upload.php".data <:+: "http://host".data)) ∧
    (downloadRequest calmEnv "http://host" 3 World.init).2.built =
      [("GET", "http://host/random1000x1000.jpg")] ∧
    (DownloadTest calmEnv demoServer true World.init).2.built =
      List.replicate 1000 ("GET", "http://host/random2000x2000.jpg") ∧
    (downloadRequest calmEnv "http://host" 3 World.init).2.sent =
      [{ Method := "GET", URL := "http://host/random1000x1000.jpg", ContentLength := 0,
         Header := [] }] ∧
    (DownloadTest calmEnv demoServer true World.init).2.sent =
      List.replicate 1000
        { Method := "GET", URL := "http://host/random2000x2000.jpg", ContentLength := 0,
          Header := [] } :=
  have h := download_targets calmEnv "http://host" 3 World.init demoServer true
    (by decide) (by decide) (by decide) (by decide)
  ⟨by decide, by decide, by
    rw [h.2.2.1, jobsRun_all calmEnv (fun _ => rfl)]
    rfl, by decide, by
    rw [h.2.2.2.2, requestsSent_all calmEnv _ (fun _ => rfl) (fun _ => rfl)]
    rfl⟩

end Speedtest
